import Mathlib

/-!
Verification development for the BlockEditor `Editor.js` component
(`src/packages/@sanity/form-builder/src/inputs/BlockEditor/Editor.js`).

The file shallowly embeds the parts of the component that the spec talks
about: focus-path resolution (`trackFocusPath`, `componentDidUpdate`),
change notification (`handleChange`), paste handling (`handlePaste`),
the plugin list built in the constructor, and the marker / block
resolution logic in `renderNode`.  Side-effecting collaborator calls
(`scrollIntoView`, `onLoading`, `onPatch`, `onFocus`, `next`) are made
explicit as returned values or event traces.
-/

/-- Path segments as used by `focusPath` / `marker.path` in the source:
either a key reference object `{_key: k}` or a field-name string such as
`"children"` or `"markDefs"`. -/
inductive Segment where
  | key (k : String)
  | field (name : String)
deriving DecidableEq, Repr

/-- A `Path` is an ordered list of segments. -/
abbrev EditorPath := List Segment

/-- An inline child of a content block in the live Slate document tree:
either a text span (carrying the keys of the markDef records its marks
resolve to) or an inline object. -/
inductive Child where
  | span (key : String) (annKeys : List String)
  | inlineObj (key : String)
deriving DecidableEq, Repr

/-- The stable key of an inline child. -/
def Child.key : Child → String
  | .span k _ => k
  | .inlineObj k => k

/-- A block node of the live Slate document tree. -/
structure Block where
  key : String
  children : List Child
deriving DecidableEq, Repr

/-- A descendant node returned by `editorValue.document.getDescendant`:
either a block or one of its inline children. -/
inductive Descendant where
  | block (b : Block)
  | child (c : Child)
deriving DecidableEq, Repr

/-- Embedding of Slate's `document.getDescendant(key)`: depth-first
search of the document tree for the node with the given stable key. -/
def getDescendant (blocks : List Block) (k : String) : Option Descendant :=
  match blocks with
  | [] => none
  | b :: rest =>
    if b.key == k then some (.block b)
    else
      match b.children.find? (fun c => c.key == k) with
      | some c => some (.child c)
      | none => getDescendant rest k

/-- Has this span resolved an annotation with the given markDef key? -/
def Child.carriesAnnKey (c : Child) (annKey : String) : Bool :=
  match c with
  | .span _ anns => anns.contains annKey
  | .inlineObj _ => false

/-- Modelled from the spec: `utils/findInlineByAnnotationKey` is imported
by `Editor.js` but its source is not part of the excerpt.  Per the spec
it "scans its span descendants for any span whose resolved annotation
set contains `annotationKey`, returns the first matching span; returns
null (not an error) when no span currently carries that annotation". -/
def findInlineByAnnKey (annKey : String) (block : Option Descendant) : Option Child :=
  match block with
  | some (.block b) => b.children.find? (fun c => c.carriesAnnKey annKey)
  | _ => none

/-- The key of a key segment, `none` for a field-name segment (in JS,
reading `._key` off a string yields `undefined`). -/
def Segment.keyOf : Segment → Option String
  | .key k => some k
  | .field _ => none

/-- Outcome of one run of `trackFocusPath`: nothing happened, a node was
scrolled into view, or the `Could not find a inline with key …` error
was thrown. -/
inductive TrackResult where
  | noop
  | scrolled (d : Descendant)
  | thrown (missingKey : Option String)
deriving DecidableEq, Repr

/-- Embedding of `Editor.trackFocusPath` (Editor.js lines 174-208).
`hasEditor` models `this.getEditor()` being non-null, `focusBlockKey`
models `editorValue.focusBlock` (by its key), `blocks` the document
tree.  The `scrollIntoView` side effect is reported in the result.
Degenerate inputs on which the JS would throw a `TypeError` (an empty
`focusPath`, whose `focusPath[0]._key` read crashes) are totalised via
`Option`-valued segment access; no claim depends on them. -/
def trackFocusPath (hasEditor : Bool) (focusPath : Option EditorPath)
    (focusBlockKey : Option String) (blocks : List Block) : TrackResult :=
  match hasEditor, focusPath with
  | false, _ => .noop
  | true, none => .noop
  | true, some fp =>
    let focusPathIsSingleBlock :=
      match focusBlockKey with
      | some fk => fp == [Segment.key fk]
      | none => false
    let block := (fp[0]?.bind Segment.keyOf).bind (getDescendant blocks)
    if focusPathIsSingleBlock then .noop
    else if fp[1]? == some (Segment.field "children") && (fp[2]?).isSome then
      let inlineKey := fp[2]?.bind Segment.keyOf
      match inlineKey.bind (getDescendant blocks) with
      | some d => .scrolled d
      | none => .thrown inlineKey
    else
      match fp[1]?, fp[2]? with
      | some (Segment.field "markDefs"), some seg =>
        match (seg.keyOf.bind (fun a => findInlineByAnnKey a block)) with
        | some c => .scrolled (.child c)
        | none =>
          match block with
          | some d => .scrolled d
          | none => .noop
      | _, _ =>
        match block with
        | some d => .scrolled d
        | none => .noop

/-- True exactly on the `scrolled` outcome (a `scrollIntoView` call). -/
def TrackResult.isScroll : TrackResult → Bool
  | .scrolled _ => true
  | _ => false

/-- Effect of one `handleChange` call: the generic `onChange`
notification is always invoked; in one case it additionally receives a
callback that reports the new focus path upward via `onFocus`. -/
inductive ChangeEffect where
  | onChangeWithFocus (p : EditorPath)
  | onChangePlain
deriving DecidableEq, Repr

/-- Embedding of `Editor.handleChange` (Editor.js lines 211-222).
`focusBlockKey` models `editor.value.focusBlock` (by key), `focusPath`
the current `props.focusPath`. -/
def handleChange (focusBlockKey : Option String)
    (focusPath : Option EditorPath) : ChangeEffect :=
  let path : EditorPath :=
    match focusBlockKey with
    | some k => [Segment.key k]
    | none => []
  if path.length != 0 &&
      (match focusPath with
       | some fp => fp.length == 1
       | none => false)
  then .onChangeWithFocus path
  else .onChangePlain

/-- A structured block value (`FormBuilderValue` in the source); only
the `_key` field is read by the embedded logic. -/
structure FormBuilderValue where
  key : String
deriving DecidableEq, Repr

/-- Result of a configured paste interceptor: an optional `insert`
payload and an optional target path.  A nullish interceptor result is
identified with both fields absent; the source treats the two
identically (`if (result && result.insert)`). -/
structure PasteResult where
  insert : Option (List FormBuilderValue)
  path : Option EditorPath
deriving DecidableEq, Repr

/-- The one patch shape `handlePaste` routes to the `onPatch` sink:
`insert([result.insert], 'after', result.path || focusPath)`.  Note the
source wraps the interceptor payload in a singleton list, hence
`items : List (List FormBuilderValue)`. -/
structure InsertPatch where
  items : List (List FormBuilderValue)
  position : String
  path : Option EditorPath
deriving DecidableEq, Repr

/-- Observable collaborator calls made by `handlePaste`, in order:
`onLoading` signals, the interceptor invocation (with the path computed
from the current selection), `onPatch` emissions, and the `next`
continuation. -/
inductive PasteEvt where
  | loading (paste : Option String)
  | interceptorRun (path : EditorPath)
  | patch (p : InsertPatch)
  | next
deriving DecidableEq, Repr

/-- The selection path `handlePaste` hands to the interceptor (Editor.js
lines 277-284): the focus block's key, then `children` plus
`selection.focus.key` when the selection focuses an inline or text
node. -/
def pasteSelectionPath (focusBlockKey : Option String)
    (focusChildKey : Option String) : EditorPath :=
  (match focusBlockKey with
   | some k => [Segment.key k]
   | none => []) ++
  (match focusChildKey with
   | some ck => [Segment.field "children", Segment.key ck]
   | none => [])

/-- Embedding of `Editor.handlePaste` (Editor.js lines 269-293) as the
trace of collaborator calls it makes.  `onPasteProp` models
`this.props.onPaste`, `onPastePart` the part-registered fallback
`onPasteFromPart` (the source takes `props.onPaste || onPasteFromPart`).
`focusChildKey` is `selection.focus.key` when `focusInline || focusText`
is present, else `none`. -/
def handlePaste (onPasteProp onPastePart : Option PasteResult)
    (focusPath : Option EditorPath)
    (focusBlockKey : Option String) (focusChildKey : Option String) : List PasteEvt :=
  match onPasteProp <|> onPastePart with
  | none => [.next]
  | some r =>
    PasteEvt.loading (some "start") ::
      PasteEvt.interceptorRun (pasteSelectionPath focusBlockKey focusChildKey) ::
      (match r.insert with
       | some blocks =>
         [PasteEvt.patch ⟨[blocks], "after", r.path <|> focusPath⟩, PasteEvt.loading none]
       | none => [PasteEvt.loading none, PasteEvt.next])

/-- Tags for the eighteen Slate plugins instantiated in the `Editor`
constructor (`toggleAnn` stands for the annotation-toggling plugin). -/
inductive PluginTag where
  | query
  | listItemOnEnterKey
  | listItemOnTabKey
  | toggleListItem
  | textBlockOnEnterKey
  | setMarksOnKeyCombo
  | softBreak
  | paste
  | insertBlockOnEnter
  | onDrop
  | setBlockStyle
  | toggleAnn
  | expandToWord
  | wrapSpan
  | insertInlineObject
  | insertBlockObject
  | undoRedo
  | firefoxVoidNode
deriving DecidableEq, Repr

/-- The plugin list exactly as built in the `Editor` constructor
(Editor.js lines 117-147), in source order. -/
def editorPlugins : List PluginTag :=
  [.query,
   .listItemOnEnterKey,
   .listItemOnTabKey,
   .toggleListItem,
   .textBlockOnEnterKey,
   .setMarksOnKeyCombo,
   .softBreak,
   .paste,
   .insertBlockOnEnter,
   .onDrop,
   .setBlockStyle,
   .toggleAnn,
   .expandToWord,
   .wrapSpan,
   .insertInlineObject,
   .insertBlockObject,
   .undoRedo,
   .firefoxVoidNode]

/-- Modelled from the spec: the registration order the spec lists,
highest priority first — query/selection tracking, list-enter, list-tab,
list-toggle, generic text-block enter, mark-hotkey, soft-break, paste
interception, block-insert-on-enter, drop, block-style, annotation
toggling, word-expansion, span-wrapping, inline-object insertion,
block-object insertion, undo/redo, void-node compatibility shim. -/
def specPluginOrder : List PluginTag :=
  [.query,
   .listItemOnEnterKey,
   .listItemOnTabKey,
   .toggleListItem,
   .textBlockOnEnterKey,
   .setMarksOnKeyCombo,
   .softBreak,
   .paste,
   .insertBlockOnEnter,
   .onDrop,
   .setBlockStyle,
   .toggleAnn,
   .expandToWord,
   .wrapSpan,
   .insertInlineObject,
   .insertBlockObject,
   .undoRedo,
   .firefoxVoidNode]

/-- A marker (out-of-band annotation such as a validation message),
addressed by a path. -/
structure MarkerRec where
  path : EditorPath
deriving DecidableEq, Repr

/-- View of a tree node as consumed by `renderNode`'s marker logic.  A
span carries the markDef keys of its resolved annotations (the `_key`
values in `node.data.get('annotations')`) and its parent block's key
(`document.getParent(node.key)`). -/
inductive RenderedNode where
  | contentBlock (key : String)
  | span (key : String) (annKeys : List String) (parentBlockKey : String)
  | inlineObj (key : String)
  | blockObj (key : String)
deriving DecidableEq, Repr

/-- The key held by the segment at index `i` of a path, `none` when the
segment is missing or is a field-name string (JS reads `undefined`). -/
def segKeyAt (p : EditorPath) (i : Nat) : Option String :=
  (p[i]?).bind Segment.keyOf

/-- Embedding of the marker-attachment logic of `Editor.renderNode`
(Editor.js lines 362-389).  `markers` starts as `[]`; it is reassigned
only for inline objects (filter on `marker.path[2]._key`) and spans
(same filter, then for each annotation the span carries, a filter on
`path[0]._key === block.key && path[1] === 'markDefs' && path[2]._key`).
Degenerate markers on which the JS would throw a `TypeError` (an empty
path, or a two-segment path ending in `markDefs`, reached only in the
annotation loop) are totalised to a non-match; no claim depends on
them. -/
def attachedMarkers (markers : List MarkerRec) (node : RenderedNode) : List MarkerRec :=
  match node with
  | .inlineObj k => markers.filter (fun m => segKeyAt m.path 2 == some k)
  | .span k anns blockKey =>
    let base := markers.filter (fun m => segKeyAt m.path 2 == some k)
    anns.foldl
      (fun acc a =>
        acc ++ markers.filter (fun m =>
          segKeyAt m.path 0 == some blockKey &&
          m.path[1]? == some (Segment.field "markDefs") &&
          segKeyAt m.path 2 == some a))
      base
  | _ => []

/-- Embedding of the `block` prop computation in `renderNode`'s
`contentBlock` branch (Editor.js lines 396-403): key lookup in the
persisted `value` when present, else the head of the block-tools
conversion of the live node (`editorValueToBlocks(...)[0]`, passed here
abstractly as `converted` since the conversion library is an external
collaborator). -/
def resolveBlockForRender (value : Option (List FormBuilderValue)) (nodeKey : String)
    (converted : List FormBuilderValue) : Option FormBuilderValue :=
  match value with
  | some v => v.find? (fun blk => blk.key == nodeKey)
  | none => converted.head?

/-- Embedding of the guard in `componentDidUpdate` (Editor.js lines
154-170): `trackFocusPath` re-runs only when the editor ref is live, the
new focus path is non-empty, and it differs structurally (`!isEqual`)
from the previous one. -/
def shouldTrackOnUpdate (hasEditor : Bool)
    (prevFocusPath focusPath : Option EditorPath) : Bool :=
  hasEditor &&
    match focusPath with
    | some fp => fp.length != 0 && prevFocusPath != some fp
    | none => false

/-- Number of `scrollIntoView` calls over a sequence of updates:
each update compares the previous props' focus path with the new one
and runs `trackFocusPath` only when `shouldTrackOnUpdate` holds. -/
def scrollsOnUpdates (hasEditor : Bool) (focusBlockKey : Option String)
    (blocks : List Block) :
    Option EditorPath → List (Option EditorPath) → Nat
  | _, [] => 0
  | prev, cur :: rest =>
    (if shouldTrackOnUpdate hasEditor prev cur then
       (if (trackFocusPath hasEditor cur focusBlockKey blocks).isScroll then 1 else 0)
     else 0)
    + scrollsOnUpdates hasEditor focusBlockKey blocks cur rest

/-- Number of `scrollIntoView` calls over a whole component lifecycle:
`componentDidMount` runs `trackFocusPath` once unconditionally, then
each update is guarded by `shouldTrackOnUpdate`. -/
def lifecycleScrolls (hasEditor : Bool) (focusBlockKey : Option String)
    (blocks : List Block) (initialFocusPath : Option EditorPath)
    (updates : List (Option EditorPath)) : Nat :=
  (if (trackFocusPath hasEditor initialFocusPath focusBlockKey blocks).isScroll then 1 else 0)
  + scrollsOnUpdates hasEditor focusBlockKey blocks initialFocusPath updates

/-- True exactly on `onPatch` emissions in a paste trace. -/
def PasteEvt.isPatch : PasteEvt → Bool
  | .patch _ => true
  | _ => false

/-- True exactly on `onLoading` signals in a paste trace. -/
def PasteEvt.isLoading : PasteEvt → Bool
  | .loading _ => true
  | _ => false

/-- Folding appends over a list is appending the flat map. -/
theorem foldl_append_flatMap {α β : Type} (f : α → List β) :
    ∀ (l : List α) (init : List β),
      l.foldl (fun acc a => acc ++ f a) init = init ++ l.flatMap f := by
  intro l
  induction l with
  | nil => intro init; simp
  | cons a rest ih =>
    intro init
    simp [List.foldl_cons, ih, List.append_assoc]

/-- C4: with no paste interceptor configured — neither the `onPaste`
prop nor the part-registered fallback — `handlePaste` emits no patches
and no loading signals and invokes the `next` continuation exactly
once, delegating to the engine's default paste behaviour. -/
theorem handlePaste_no_interceptor (focusPath : Option EditorPath)
    (focusBlockKey focusChildKey : Option String) :
    handlePaste none none focusPath focusBlockKey focusChildKey = [PasteEvt.next] := by
  rfl

/-- C5: the plugin list built once in the `Editor` constructor is
exactly, in order, the eighteen plugins the spec enumerates (query,
list-enter, list-tab, list-toggle, text-block enter, mark hotkeys,
soft-break, paste, block-insert-on-enter, drop, block style, annotation
toggling, word expansion, span wrapping, inline-object insertion,
block-object insertion, undo/redo, Firefox void-node shim). -/
theorem editorPlugins_match_spec :
    editorPlugins = specPluginOrder ∧ editorPlugins.length = 18 := by
  decide

/-- C2: for a path of the form key-block / children / key-child,
`trackFocusPath` throws the NotFound error when no node with the child
key exists in the document, and scrolls the found node into view when
it does exist. -/
theorem trackFocusPath_children_resolution (blocks : List Block)
    (focusBlockKey : Option String) (bk ck : String) :
    (getDescendant blocks ck = none →
      trackFocusPath true (some [Segment.key bk, Segment.field "children", Segment.key ck])
        focusBlockKey blocks = TrackResult.thrown (some ck)) ∧
    (∀ d, getDescendant blocks ck = some d →
      trackFocusPath true (some [Segment.key bk, Segment.field "children", Segment.key ck])
        focusBlockKey blocks = TrackResult.scrolled d) := by
  cases focusBlockKey with
  | none =>
    refine ⟨fun h => ?_, fun d h => ?_⟩ <;> simp [trackFocusPath, h, Segment.keyOf]
  | some fk =>
    refine ⟨fun h => ?_, fun d h => ?_⟩ <;> simp [trackFocusPath, h, Segment.keyOf]

/-- Witness for C2 at a concrete document: a missing child key throws,
a present child key scrolls that child into view. -/
theorem trackFocusPath_children_resolution_witness :
    trackFocusPath true
      (some [Segment.key "b1", Segment.field "children", Segment.key "cX"])
      none [⟨"b1", [Child.span "s1" []]⟩] = TrackResult.thrown (some "cX") ∧
    trackFocusPath true
      (some [Segment.key "b1", Segment.field "children", Segment.key "s1"])
      none [⟨"b1", [Child.span "s1" []]⟩] =
      TrackResult.scrolled (Descendant.child (Child.span "s1" [])) :=
  ⟨(trackFocusPath_children_resolution _ _ _ _).1 (by decide),
   (trackFocusPath_children_resolution _ _ _ _).2 _ (by decide)⟩

/-- Counterexample to C1 as stated: on the path b1 / markDefs / a1 with
no span carrying annotation a1, `trackFocusPath` does not do nothing —
it falls through to the regular-block branch and scrolls block b1 into
view, so a bring-into-view effect does fire. -/
theorem trackFocusPath_markDefs_cex :
    findInlineByAnnKey "a1" (getDescendant [⟨"b1", [Child.span "s1" []]⟩] "b1") = none ∧
    trackFocusPath true
      (some [Segment.key "b1", Segment.field "markDefs", Segment.key "a1"])
      none [⟨"b1", [Child.span "s1" []]⟩] =
      TrackResult.scrolled (Descendant.block ⟨"b1", [Child.span "s1" []]⟩) := by
  decide

/-- C1 (amended): on a key-block / markDefs / key-annotation path where
no span carries the annotation, `trackFocusPath` raises no error and
scrolls no span; instead it falls back to scrolling the addressed block
itself when that block exists in the document, and does nothing when it
does not. -/
theorem trackFocusPath_markDefs_noSpan (blocks : List Block)
    (focusBlockKey : Option String) (bk ak : String)
    (h : findInlineByAnnKey ak (getDescendant blocks bk) = none) :
    trackFocusPath true (some [Segment.key bk, Segment.field "markDefs", Segment.key ak])
      focusBlockKey blocks =
      (match getDescendant blocks bk with
       | some d => TrackResult.scrolled d
       | none => TrackResult.noop) := by
  cases hb : getDescendant blocks bk with
  | none =>
    rw [hb] at h
    cases focusBlockKey <;> simp [trackFocusPath, Segment.keyOf, h, hb]
  | some d =>
    rw [hb] at h
    cases focusBlockKey <;> simp [trackFocusPath, Segment.keyOf, h, hb]

/-- Witness for the amended C1 at a concrete document. -/
theorem trackFocusPath_markDefs_noSpan_witness :
    trackFocusPath true
      (some [Segment.key "b1", Segment.field "markDefs", Segment.key "a1"])
      none [⟨"b1", [Child.span "s1" []]⟩] =
      (match getDescendant [⟨"b1", [Child.span "s1" []]⟩] "b1" with
       | some d => TrackResult.scrolled d
       | none => TrackResult.noop) :=
  trackFocusPath_markDefs_noSpan _ _ _ _ (by decide)

/-- C3: with an interceptor configured whose result carries an insert
payload, `handlePaste` signals loading start, runs the interceptor,
emits exactly one insert-after patch targeting the result path (falling
back to the focus path), then signals loading done — in that order,
with no other loading signal in between and no `next` call. -/
theorem handlePaste_insert_roundtrip
    (onPasteProp onPastePart : Option PasteResult) (focusPath : Option EditorPath)
    (focusBlockKey focusChildKey : Option String) (r : PasteResult)
    (blocks : List FormBuilderValue)
    (h1 : (onPasteProp <|> onPastePart) = some r) (h2 : r.insert = some blocks) :
    handlePaste onPasteProp onPastePart focusPath focusBlockKey focusChildKey =
      [PasteEvt.loading (some "start"),
       PasteEvt.interceptorRun (pasteSelectionPath focusBlockKey focusChildKey),
       PasteEvt.patch ⟨[blocks], "after", r.path <|> focusPath⟩,
       PasteEvt.loading none] ∧
    ((handlePaste onPasteProp onPastePart focusPath focusBlockKey focusChildKey).filter
        PasteEvt.isPatch).length = 1 := by
  constructor
  · simp [handlePaste, h1, h2]
  · simp [handlePaste, h1, h2, PasteEvt.isPatch, List.filter]

/-- Witness for C3 with a concrete interceptor result carrying one
block and an explicit target path. -/
theorem handlePaste_insert_roundtrip_witness :
    handlePaste (some ⟨some [⟨"x"⟩], some [Segment.key "p"]⟩) none
        (some [Segment.key "f"]) (some "b") none =
      [PasteEvt.loading (some "start"),
       PasteEvt.interceptorRun (pasteSelectionPath (some "b") none),
       PasteEvt.patch ⟨[[⟨"x"⟩]], "after", some [Segment.key "p"]⟩,
       PasteEvt.loading none] ∧
    ((handlePaste (some ⟨some [⟨"x"⟩], some [Segment.key "p"]⟩) none
        (some [Segment.key "f"]) (some "b") none).filter PasteEvt.isPatch).length = 1 :=
  handlePaste_insert_roundtrip (some ⟨some [⟨"x"⟩], some [Segment.key "p"]⟩) none
    (some [Segment.key "f"]) (some "b") none ⟨some [⟨"x"⟩], some [Segment.key "p"]⟩
    [⟨"x"⟩] rfl rfl

/-- C6: `handleChange` reports the focused block's key as a
single-segment path through the onFocus callback exactly when there is
a focused block and the previous focus path had exactly one segment;
and the generic onChange notification is invoked in every case (every
outcome is one of the two onChange forms). -/
theorem handleChange_focus_iff (focusBlockKey : Option String)
    (focusPath : Option EditorPath) (k : String) :
    (handleChange focusBlockKey focusPath = ChangeEffect.onChangeWithFocus [Segment.key k] ↔
      focusBlockKey = some k ∧ ∃ fp, focusPath = some fp ∧ fp.length = 1) ∧
    (handleChange focusBlockKey focusPath = ChangeEffect.onChangePlain ∨
      ∃ p, handleChange focusBlockKey focusPath = ChangeEffect.onChangeWithFocus p) := by
  constructor
  · cases focusBlockKey with
    | none => cases focusPath <;> simp [handleChange]
    | some fk =>
      cases focusPath with
      | none => simp [handleChange]
      | some fp =>
        by_cases hl : fp.length = 1 <;> simp [handleChange, hl]
  · cases focusBlockKey with
    | none => cases focusPath <;> simp [handleChange]
    | some fk =>
      cases focusPath with
      | none => simp [handleChange]
      | some fp => by_cases hl : fp.length = 1 <;> simp [handleChange, hl]

/-- Counterexample to C7 as stated: a marker whose path is the single
key segment x does not attach to content block x (block-level markers
are not attached in `renderNode` at all); and a marker addressing
annotation s1 of block b via markDefs attaches to an inline object
keyed s1 even though its full chain is not block/children/s1 — only the
third path segment's key is compared. -/
theorem attachedMarkers_cex :
    attachedMarkers [⟨[Segment.key "x"]⟩] (RenderedNode.contentBlock "x") = [] ∧
    attachedMarkers [⟨[Segment.key "b", Segment.field "markDefs", Segment.key "s1"]⟩]
        (RenderedNode.inlineObj "s1") =
      [⟨[Segment.key "b", Segment.field "markDefs", Segment.key "s1"]⟩] := by
  decide

/-- C7 (amended): in `renderNode`, content blocks and block objects
receive no markers; an inline object receives exactly the markers whose
third path segment is a key segment holding its key, irrespective of
the first two segments; and a span receives those same third-segment
matches plus, for every annotation key it carries, each marker whose
path is parent-block key / markDefs / that annotation key. -/
theorem attachedMarkers_spec (ms : List MarkerRec) (k bk : String)
    (anns : List String) (m : MarkerRec) :
    attachedMarkers ms (RenderedNode.contentBlock k) = [] ∧
    attachedMarkers ms (RenderedNode.blockObj k) = [] ∧
    (m ∈ attachedMarkers ms (RenderedNode.inlineObj k) ↔
      m ∈ ms ∧ segKeyAt m.path 2 = some k) ∧
    (m ∈ attachedMarkers ms (RenderedNode.span k anns bk) ↔
      m ∈ ms ∧
        (segKeyAt m.path 2 = some k ∨
          ∃ a ∈ anns,
            segKeyAt m.path 0 = some bk ∧
            m.path[1]? = some (Segment.field "markDefs") ∧
            segKeyAt m.path 2 = some a)) := by
  refine ⟨rfl, rfl, ?_, ?_⟩
  · simp [attachedMarkers, List.mem_filter]
  · simp only [attachedMarkers, foldl_append_flatMap, List.mem_append, List.mem_filter,
      List.mem_flatMap, Bool.and_eq_true, beq_iff_eq]
    constructor
    · rintro (⟨hm, h2⟩ | ⟨a, ha, hm, ⟨h0, h1⟩, h2⟩)
      · exact ⟨hm, Or.inl h2⟩
      · exact ⟨hm, Or.inr ⟨a, ha, h0, h1, h2⟩⟩
    · rintro ⟨hm, h2 | ⟨a, ha, h0, h1, h2⟩⟩
      · exact Or.inl ⟨hm, h2⟩
      · exact Or.inr ⟨a, ha, hm, ⟨h0, h1⟩, h2⟩

/-- C8: the `contentBlock` branch of `renderNode` resolves the block to
render by key lookup in the persisted value when that value is present
(any hit carries the node's key, a hit exists whenever some persisted
block has the key, and a miss yields none), and falls back to the head
of the block-tools conversion of the live node when the persisted value
is absent. -/
theorem resolveBlockForRender_spec :
    (∀ (vl : List FormBuilderValue) (k : String) (conv : List FormBuilderValue)
        (blk : FormBuilderValue),
      resolveBlockForRender (some vl) k conv = some blk → blk ∈ vl ∧ blk.key = k) ∧
    (∀ (vl : List FormBuilderValue) (k : String) (conv : List FormBuilderValue),
      (∃ blk ∈ vl, blk.key = k) →
      ∃ blk, resolveBlockForRender (some vl) k conv = some blk ∧ blk.key = k) ∧
    (∀ (k : String) (conv : List FormBuilderValue),
      resolveBlockForRender none k conv = conv.head?) := by
  refine ⟨?_, ?_, fun k conv => rfl⟩
  · intro vl k conv blk h
    have hmem := List.mem_of_find?_eq_some h
    have hp := List.find?_some h
    exact ⟨hmem, by simpa using hp⟩
  · intro vl k conv ⟨blk, hmem, hkey⟩
    have hs : (vl.find? (fun b => b.key == k)).isSome := by
      rw [List.find?_isSome]
      exact ⟨blk, hmem, by simpa using hkey⟩
    obtain ⟨blk2, h2⟩ := Option.isSome_iff_exists.mp hs
    refine ⟨blk2, h2, ?_⟩
    have hp2 := List.find?_some h2
    simpa using hp2

/-- Witness for C8 at a concrete persisted value of two blocks. -/
theorem resolveBlockForRender_spec_witness :
    ((⟨"b"⟩ : FormBuilderValue) ∈ [(⟨"a"⟩ : FormBuilderValue), ⟨"b"⟩] ∧
      (⟨"b"⟩ : FormBuilderValue).key = "b") ∧
    (∃ blk, resolveBlockForRender (some [⟨"a"⟩, ⟨"b"⟩]) "b" [] = some blk ∧
      blk.key = "b") :=
  ⟨resolveBlockForRender_spec.1 [⟨"a"⟩, ⟨"b"⟩] "b" [] ⟨"b"⟩ (by decide),
   resolveBlockForRender_spec.2.1 [⟨"a"⟩, ⟨"b"⟩] "b" [] ⟨⟨"b"⟩, by decide, rfl⟩⟩

/-- An update whose focus path equals the previous one never re-runs
resolution. -/
theorem shouldTrackOnUpdate_self (hasEditor : Bool) (p : Option EditorPath) :
    shouldTrackOnUpdate hasEditor p p = false := by
  cases p <;> simp [shouldTrackOnUpdate]

/-- Updates that never change the focus path value contribute no
scrolls. -/
theorem scrollsOnUpdates_const (hasEditor : Bool) (focusBlockKey : Option String)
    (blocks : List Block) (p0 : Option EditorPath) :
    ∀ (updates : List (Option EditorPath)), (∀ u ∈ updates, u = p0) →
      scrollsOnUpdates hasEditor focusBlockKey blocks p0 updates = 0 := by
  intro updates
  induction updates with
  | nil => intro _; rfl
  | cons u rest ih =>
    intro hu
    have hu0 : u = p0 := hu u (List.mem_cons_self u rest)
    subst hu0
    rw [scrollsOnUpdates, shouldTrackOnUpdate_self]
    simpa using ih (fun v hv => hu v (List.mem_cons_of_mem u hv))

/-- C9: resolution re-runs on an update only when the focus path value
changed structurally (an unchanged value never re-triggers it), and
across a whole lifecycle whose updates keep the focus path value
unchanged, the bring-into-view effect fires at most once — on the mount
resolution only. -/
theorem focusPath_resolution_idempotent
    (hasEditor : Bool) (focusBlockKey : Option String) (blocks : List Block)
    (p0 : Option EditorPath) (updates : List (Option EditorPath))
    (h : ∀ u ∈ updates, u = p0) :
    (∀ (he : Bool) (prev cur : Option EditorPath), cur = prev →
      shouldTrackOnUpdate he prev cur = false) ∧
    lifecycleScrolls hasEditor focusBlockKey blocks p0 updates ≤ 1 := by
  constructor
  · intro he prev cur hc
    subst hc
    exact shouldTrackOnUpdate_self he cur
  · rw [lifecycleScrolls, scrollsOnUpdates_const hasEditor focusBlockKey blocks p0 updates h]
    split <;> simp

/-- Witness for C9: two re-renders with the same single-block focus
path scroll at most once in total. -/
theorem focusPath_resolution_idempotent_witness :
    shouldTrackOnUpdate true (some [Segment.key "b1"]) (some [Segment.key "b1"]) = false ∧
    lifecycleScrolls true none [⟨"b1", []⟩] (some [Segment.key "b1"])
      [some [Segment.key "b1"], some [Segment.key "b1"]] ≤ 1 :=
  ⟨(focusPath_resolution_idempotent true none [⟨"b1", []⟩] (some [Segment.key "b1"])
      [some [Segment.key "b1"], some [Segment.key "b1"]] (by decide)).1 true
      (some [Segment.key "b1"]) (some [Segment.key "b1"]) rfl,
   (focusPath_resolution_idempotent true none [⟨"b1", []⟩] (some [Segment.key "b1"])
      [some [Segment.key "b1"], some [Segment.key "b1"]] (by decide)).2⟩

/-- C10: with an interceptor configured whose result has no insert
payload, `handlePaste` still signals loading start and then loading
done before falling through to `next`; with no interceptor configured
at all, it delegates immediately and emits no loading signal
whatsoever. -/
theorem handlePaste_loading_phases
    (onPasteProp onPastePart : Option PasteResult) (focusPath : Option EditorPath)
    (focusBlockKey focusChildKey : Option String) (r : PasteResult)
    (h1 : (onPasteProp <|> onPastePart) = some r) (h2 : r.insert = none) :
    handlePaste onPasteProp onPastePart focusPath focusBlockKey focusChildKey =
      [PasteEvt.loading (some "start"),
       PasteEvt.interceptorRun (pasteSelectionPath focusBlockKey focusChildKey),
       PasteEvt.loading none,
       PasteEvt.next] ∧
    (handlePaste none none focusPath focusBlockKey focusChildKey).filter
        PasteEvt.isLoading = [] := by
  constructor
  · simp [handlePaste, h1, h2]
  · simp [handlePaste, PasteEvt.isLoading, List.filter]

/-- Witness for C10 with a concrete empty interceptor result. -/
theorem handlePaste_loading_phases_witness :
    handlePaste (some ⟨none, none⟩) none (some [Segment.key "f"]) (some "b") (some "c") =
      [PasteEvt.loading (some "start"),
       PasteEvt.interceptorRun (pasteSelectionPath (some "b") (some "c")),
       PasteEvt.loading none,
       PasteEvt.next] ∧
    (handlePaste none none (some [Segment.key "f"]) (some "b") (some "c")).filter
        PasteEvt.isLoading = [] :=
  handlePaste_loading_phases (some ⟨none, none⟩) none (some [Segment.key "f"])
    (some "b") (some "c") ⟨none, none⟩ rfl rfl
